import Mathlib

/-!
Verification of the dorm-menu splitter (src/app.py).

The program turns a weekly-calendar PDF into per-day images.  Its core logic
is the nested loop in `main` (src/app.py lines 100-135): for each page
`p_idx` and weekday column `i` it computes the cell date
`first_monday + timedelta(days=p_idx*7) + timedelta(days=i)`, keeps the cell
when `curr_date.month == target_month`, computes the column rectangle
`d_left = x0 + i*w_step`, `d_right = d_left + w_step if i < 6 else x1` with
`w_step = (x1 - x0) / 7`, and writes the crop into the zip archive under the
name `f"{curr_date.day}.png"`.  Afterwards it shows a download button if
`saved_count > 0` and a warning otherwise.

Embedding choices:
* Python `datetime.date` values are modelled by their proleptic-Gregorian
  ordinal (`date.toordinal()`, a positive integer; 0001-01-01 is ordinal 1).
  Adding a `timedelta(days = k)` is ordinal addition.  The accessors
  `.month`, `.day` are modelled by the standard civil-from-days conversion
  for the proleptic Gregorian calendar (the calendar `datetime` implements),
  and `.weekday()` by `(ordinal + 6) % 7`, exactly as in CPython.
  `date + timedelta` raises `OverflowError` outside `1 ≤ ordinal ≤ 3652059`
  (`date.max` is 9999-12-31); `mapDateChecked` models that check.
* Pixel coordinates (Python floats) are modelled by exact rationals; the
  geometric claims are algebraic identities, stated exactly.
* The zip archive is modelled by its ordered list of entry names; rendering,
  cropping and PNG encoding are out-of-scope external collaborators.
-/

namespace MenuSplit

/-! ### Model of Python `datetime.date` field accessors

A date is its Python ordinal `o : Nat` (`date.toordinal()`).  Writing
`O = o + 305`, the number `O` counts days from 0000-03-01 of the proleptic
Gregorian calendar; `O` splits into a 400-year era (146097 days) and a
day-of-era `doe`, the `doe` into a year-of-era `yoe` and day-of-year `doy`
(years start on March 1), and the `doy` into a shifted month `mp`
(0 = March, ..., 11 = February) and a day-of-month. -/

/-- Day-of-era of an ordinal: days since the start of its 400-year cycle. -/
def doeOf (o : Nat) : Nat := (o + 305) % 146097

/-- Era (400-year cycle index) of an ordinal. -/
def eraOf (o : Nat) : Nat := (o + 305) / 146097

/-- Year-of-era (0..399, March-based) holding a given day-of-era. -/
def yoeOf (doe : Nat) : Nat := (doe - doe / 1460 + doe / 36524 - doe / 146096) / 365

/-- Day-of-era on which a year-of-era starts (years start March 1). -/
def yearStart (yoe : Nat) : Nat := 365 * yoe + yoe / 4 - yoe / 100

/-- Day-of-year (0-based from March 1) of a day-of-era. -/
def doyOf (doe : Nat) : Nat := doe - yearStart (yoeOf doe)

/-- Shifted month (0 = March ... 11 = February) of a day-of-year. -/
def mpOf (doy : Nat) : Nat := (5 * doy + 2) / 153

/-- Day-of-month (1-based) of a day-of-year. -/
def dayOfDoy (doy : Nat) : Nat := doy - (153 * mpOf doy + 2) / 5 + 1

/-- Civil month (1 = January ... 12 = December) from the shifted month. -/
def monthOfMp (mp : Nat) : Nat := if mp < 10 then mp + 3 else mp - 9

/-- Model of Python `date.fromordinal(o).month`. -/
def month (o : Nat) : Nat := monthOfMp (mpOf (doyOf (doeOf o)))

/-- Model of Python `date.fromordinal(o).day`. -/
def day (o : Nat) : Nat := dayOfDoy (doyOf (doeOf o))

/-- Model of Python `date.weekday()`: Monday = 0.  CPython computes exactly
`(self.toordinal() + 6) % 7`. -/
def weekday (o : Nat) : Nat := (o + 6) % 7

/-- Days before civil year `y` (March-based shifted year), used to relate
two ordinals that fall on the same month and day. -/
def daysBeforeYear (y : Nat) : Nat := 365 * y + y / 4 - y / 100 + y / 400

/-- Python `date.max.toordinal()`: the ordinal of 9999-12-31. -/
def maxOrdinal : Nat := 3652059

/-- Model of Python `date + timedelta(days = k)`: CPython checks
`0 < ordinal <= _MAXORDINAL` and raises `OverflowError` (modelled by `none`)
otherwise. -/
def addDays (o k : Nat) : Option Nat :=
  if 0 < o + k ∧ o + k ≤ maxOrdinal then some (o + k) else none

/-! ### The planner core (src/app.py lines 100-135) -/

/-- A pixel rectangle `(x0, y0, x1, y1)`; Python floats are modelled by
exact rationals. -/
structure Rect where
  x0 : ℚ
  y0 : ℚ
  x1 : ℚ
  y1 : ℚ
deriving DecidableEq

/-- One archive entry of the extraction plan: the page it is cropped from,
the crop rectangle, and the name it is stored under in the zip. -/
structure Entry where
  page_index : Nat
  rect : Rect
  file_name : String
deriving DecidableEq

/-- Source line 108: `p_monday = first_monday + timedelta(days=p_idx * 7)`. -/
def pageMonday (anchor p : Nat) : Nat := anchor + p * 7

/-- Source line 112: `curr_date = p_monday + timedelta(days=i)`. -/
def mapDate (anchor p i : Nat) : Nat := pageMonday anchor p + i

/-- The two date additions of lines 108 and 112 with CPython's range check
(`date.__add__` raises `OverflowError` past 9999-12-31). -/
def mapDateChecked (anchor p i : Nat) : Option Nat :=
  (addDays anchor (p * 7)).bind fun pm => addDays pm i

/-- Source line 110: `w_step = (x1 - x0) / 7`. -/
def wStep (band : Rect) : ℚ := (band.x1 - band.x0) / 7

/-- Source lines 116-118: `d_left = x0 + i * w_step`,
`d_right = d_left + w_step if i < 6 else x1`, crop box
`(d_left, y0, d_right, y1)`. -/
def columnRect (band : Rect) (i : Nat) : Rect :=
  ⟨band.x0 + (i : ℚ) * wStep band, band.y0,
   if i < 6 then band.x0 + (i : ℚ) * wStep band + wStep band else band.x1,
   band.y1⟩

/-- Source line 123: the zip entry is named `f"{curr_date.day}.png"`. -/
def fileName (o : Nat) : String := toString (day o) ++ ".png"

/-- The plan entry produced for page `p`, column `i`. -/
def mkEntry (anchor : Nat) (band : Rect) (p i : Nat) : Entry :=
  ⟨p, columnRect band i, fileName (mapDate anchor p i)⟩

/-- The inner loop of lines 111-124: for `i in range(7)`, skip the cell when
`curr_date.month != target_month`, otherwise emit its entry. -/
def weekEntries (anchor : Nat) (band : Rect) (m p : Nat) : List Entry :=
  (List.range 7).filterMap fun i =>
    if month (mapDate anchor p i) = m then some (mkEntry anchor band p i) else none

/-- The outer loop of line 106: pages `0 .. page_count - 1` in order; the
ordered sequence of zip writes of one run. -/
def buildPlan (pageCount anchor : Nat) (band : Rect) (m : Nat) : List Entry :=
  (List.range pageCount).flatMap (weekEntries anchor band m)

/-- All `(page, column)` pairs visited by the two nested loops, in visit
order. -/
def cells (pageCount : Nat) : List (Nat × Nat) :=
  (List.range pageCount).flatMap fun p => (List.range 7).map fun i => (p, i)

/-- The month filter of line 113 as a predicate on a cell: the cell is kept
exactly when `curr_date.month == target_month` (the year plays no role). -/
def selected (anchor m : Nat) (c : Nat × Nat) : Bool :=
  decide (month (mapDate anchor c.1 c.2) = m)

/-- The cells that pass the month filter, in visit order. -/
def selectedCells (pageCount anchor m : Nat) : List (Nat × Nat) :=
  (cells pageCount).filter (selected anchor m)

/-- Source line 124: `saved_count`, the number of zip entries written. -/
def emittedCount (pageCount anchor : Nat) (band : Rect) (m : Nat) : Nat :=
  (buildPlan pageCount anchor band m).length

/-- The ordered list of names written into the zip archive. -/
def archiveNames (pageCount anchor : Nat) (band : Rect) (m : Nat) : List String :=
  (buildPlan pageCount anchor band m).map Entry.file_name

/-- What the app surfaces after a run (lines 127-135): a download button
when `saved_count > 0`, a warning otherwise. -/
inductive Outcome where
  | download : Outcome
  | warning : Outcome
deriving DecidableEq

/-- Lines 127-135: `if saved_count > 0: ... download ... else: ... warning`. -/
def runOutcome (pageCount anchor : Nat) (band : Rect) (m : Nat) : Outcome :=
  if 0 < emittedCount pageCount anchor band m then Outcome.download else Outcome.warning

/-- The observable archive content of a run: the ordered entry names and the
emitted count.  The resolution `dpi` is what line 107 passes to the page
rasterizer; it influences pixel data only, never names or count. -/
def runArchive (pageCount anchor : Nat) (band : Rect) (m dpi : Nat) : List String × Nat :=
  (archiveNames pageCount anchor band m, emittedCount pageCount anchor band m)

/-- Strict visit order on cells: earlier page, or same page and earlier
column. -/
def cellLt (c1 c2 : Nat × Nat) : Prop :=
  c1.1 < c2.1 ∨ (c1.1 = c2.1 ∧ c1.2 < c2.2)

/-! ### Date model sanity checks against Python `datetime` values -/

/-- 0001-01-01 (ordinal 1) is a Monday, January 1. -/
lemma sanity_ordinal_one : month 1 = 1 ∧ day 1 = 1 ∧ weekday 1 = 0 := by decide

/-- 1900 is not a leap year: ordinal 693654 is 1900-02-28, the next day is
March 1. -/
lemma sanity_1900 : month 693654 = 2 ∧ day 693654 = 28 ∧ month 693655 = 3 ∧ day 693655 = 1 := by
  decide

/-- 2000 is a leap year: ordinal 730179 is 2000-02-29. -/
lemma sanity_2000 : month 730179 = 2 ∧ day 730179 = 29 ∧ month 730180 = 3 ∧ day 730180 = 1 := by
  decide

/-- 2026-01-01 (ordinal 739617) is a Thursday; 2026-01-05 (ordinal 739621)
is a Monday. -/
lemma sanity_2026 : month 739617 = 1 ∧ day 739617 = 1 ∧ weekday 739617 = 3 ∧
    weekday 739621 = 0 ∧ day 739621 = 5 := by decide

/-! ### Arithmetic of the civil-from-days conversion -/

lemma doe_lt (o : Nat) : doeOf o < 146097 :=
  Nat.mod_lt _ (by norm_num)

set_option maxHeartbeats 4000000 in
/-- Correctness of the year-of-era split: `yearStart (yoeOf doe)` is at most
`doe` and at most 365 days before it, and the year-of-era is below 400. -/
lemma yoe_split (doe : Nat) (h : doe < 146097) :
    yoeOf doe < 400 ∧ yearStart (yoeOf doe) ≤ doe ∧ doe ≤ yearStart (yoeOf doe) + 365 := by
  unfold yoeOf yearStart
  set g := doe / 1460 with hg
  have h100 : g ≤ 100 := by omega
  interval_cases g <;> first
  | omega
  | (set e := doe / 36524 with he
     have he4 : e ≤ 4 := by omega
     interval_cases e <;> omega)

lemma doy_le (o : Nat) : doyOf (doeOf o) ≤ 365 := by
  have h := yoe_split (doeOf o) (doe_lt o)
  unfold doyOf
  omega

lemma doy_split (o : Nat) :
    doeOf o = yearStart (yoeOf (doeOf o)) + doyOf (doeOf o) := by
  have h := yoe_split (doeOf o) (doe_lt o)
  unfold doyOf
  omega

lemma mp_le (doy : Nat) (h : doy ≤ 365) : mpOf doy ≤ 11 := by
  unfold mpOf
  omega

lemma mp_start_le (doy : Nat) (h : doy ≤ 365) :
    (153 * mpOf doy + 2) / 5 ≤ doy ∧ doy - (153 * mpOf doy + 2) / 5 ≤ 30 := by
  unfold mpOf
  omega

lemma monthOfMp_inj (a b : Nat) (ha : a ≤ 11) (hb : b ≤ 11)
    (h : monthOfMp a = monthOfMp b) : a = b := by
  unfold monthOfMp at h
  split at h <;> split at h <;> omega

lemma doy_inj (d1 d2 : Nat) (h1 : d1 ≤ 365) (h2 : d2 ≤ 365)
    (hmp : mpOf d1 = mpOf d2) (hd : dayOfDoy d1 = dayOfDoy d2) : d1 = d2 := by
  have s1 := mp_start_le d1 h1
  have s2 := mp_start_le d2 h2
  unfold dayOfDoy at hd
  rw [hmp] at hd s1
  omega

lemma day_bounds (o : Nat) : 1 ≤ day o ∧ day o ≤ 31 := by
  have hdoy := doy_le o
  have hsb := mp_start_le _ hdoy
  unfold day dayOfDoy
  omega

lemma daysBeforeYear_compat (era yoe : Nat) (h : yoe < 400) :
    daysBeforeYear (400 * era + yoe) = 146097 * era + yearStart yoe := by
  unfold daysBeforeYear yearStart
  omega

lemma daysBeforeYear_step (y : Nat) :
    daysBeforeYear y + 365 ≤ daysBeforeYear (y + 1) := by
  unfold daysBeforeYear
  omega

lemma daysBeforeYear_mono (y z : Nat) (h : y ≤ z) :
    daysBeforeYear y ≤ daysBeforeYear z := by
  induction z, h using Nat.le_induction with
  | base => exact le_refl _
  | succ n hn ih => exact le_trans ih (by have := daysBeforeYear_step n; omega)

lemma daysBeforeYear_gap (y z : Nat) (h : y < z) :
    daysBeforeYear y + 365 ≤ daysBeforeYear z := by
  have h1 := daysBeforeYear_step y
  have h2 := daysBeforeYear_mono (y + 1) z h
  omega

/-- Two distinct ordinals with the same civil month and day-of-month are at
least 365 days apart. -/
lemma month_day_gap (o1 o2 : Nat) (hlt : o1 < o2)
    (hm : month o1 = month o2) (hd : day o1 = day o2) : o1 + 365 ≤ o2 := by
  have hdoy1 := doy_le o1
  have hdoy2 := doy_le o2
  unfold month at hm
  unfold day at hd
  have hmp : mpOf (doyOf (doeOf o1)) = mpOf (doyOf (doeOf o2)) :=
    monthOfMp_inj _ _ (mp_le _ hdoy1) (mp_le _ hdoy2) hm
  have hdoy : doyOf (doeOf o1) = doyOf (doeOf o2) :=
    doy_inj _ _ hdoy1 hdoy2 hmp hd
  have hA1 := yoe_split (doeOf o1) (doe_lt o1)
  have hA2 := yoe_split (doeOf o2) (doe_lt o2)
  have e1 : o1 + 305 = 146097 * eraOf o1 + doeOf o1 := by
    unfold eraOf doeOf
    omega
  have e2 : o2 + 305 = 146097 * eraOf o2 + doeOf o2 := by
    unfold eraOf doeOf
    omega
  have r1 := doy_split o1
  have r2 := doy_split o2
  have c1 : daysBeforeYear (400 * eraOf o1 + yoeOf (doeOf o1))
      = 146097 * eraOf o1 + yearStart (yoeOf (doeOf o1)) :=
    daysBeforeYear_compat _ _ hA1.1
  have c2 : daysBeforeYear (400 * eraOf o2 + yoeOf (doeOf o2))
      = 146097 * eraOf o2 + yearStart (yoeOf (doeOf o2)) :=
    daysBeforeYear_compat _ _ hA2.1
  have O1 : o1 + 305 = daysBeforeYear (400 * eraOf o1 + yoeOf (doeOf o1)) + doyOf (doeOf o1) := by
    omega
  have O2 : o2 + 305 = daysBeforeYear (400 * eraOf o2 + yoeOf (doeOf o2)) + doyOf (doeOf o2) := by
    omega
  have hyy : 400 * eraOf o1 + yoeOf (doeOf o1) < 400 * eraOf o2 + yoeOf (doeOf o2) := by
    by_contra hc
    push_neg at hc
    have := daysBeforeYear_mono _ _ hc
    omega
  have := daysBeforeYear_gap _ _ hyy
  omega

/-- Rendering a day number below 32 to a string and appending ".png" is
injective (all names the program can produce). -/
lemma dayName_inj : ∀ a : Nat, a < 32 → ∀ b : Nat, b < 32 →
    toString a ++ ".png" = toString b ++ ".png" → a = b := by decide

/-- Two month-matching dates less than a year apart get distinct file names. -/
lemma fileName_ne (o1 o2 : Nat) (hlt : o1 < o2) (hnear : o2 < o1 + 365)
    (hm : month o1 = month o2) : fileName o1 ≠ fileName o2 := by
  intro hEq
  have hb1 := day_bounds o1
  have hb2 := day_bounds o2
  unfold fileName at hEq
  have hday : day o1 = day o2 :=
    dayName_inj (day o1) (by omega) (day o2) (by omega) hEq
  have := month_day_gap o1 o2 hlt hm hday
  omega

/-! ### Structure of the plan -/

lemma filterMap_if_eq_map_filter {α β : Type} (q : α → Prop) [DecidablePred q]
    (f : α → β) (l : List α) :
    (l.filterMap fun a => if q a then some (f a) else none)
      = (l.filter fun a => decide (q a)).map f := by
  induction l with
  | nil => rfl
  | cons x xs ih =>
    by_cases h : q x <;> simp [List.filterMap_cons, List.filter_cons, h, ih]

lemma weekEntries_eq (anchor : Nat) (band : Rect) (m p : Nat) :
    weekEntries anchor band m p
      = (((List.range 7).map fun i => (p, i)).filter (selected anchor m)).map
          fun c => mkEntry anchor band c.1 c.2 := by
  unfold weekEntries
  rw [filterMap_if_eq_map_filter (fun i => month (mapDate anchor p i) = m)
    (fun i => mkEntry anchor band p i), List.filter_map, List.map_map]
  rfl

/-- The plan is exactly the month-selected cells, in visit order, mapped to
their entries. -/
lemma buildPlan_eq (pageCount anchor : Nat) (band : Rect) (m : Nat) :
    buildPlan pageCount anchor band m
      = (selectedCells pageCount anchor m).map fun c => mkEntry anchor band c.1 c.2 := by
  unfold buildPlan selectedCells cells
  induction pageCount with
  | zero => rfl
  | succ n ih =>
    rw [List.range_succ, List.flatMap_append, List.flatMap_append,
      List.filter_append, List.map_append, ih]
    simp only [List.flatMap_cons, List.flatMap_nil, List.append_nil]
    rw [weekEntries_eq]

lemma mem_cells {pageCount : Nat} {c : Nat × Nat} (h : c ∈ cells pageCount) :
    c.1 < pageCount ∧ c.2 < 7 := by
  unfold cells at h
  simp only [List.mem_flatMap, List.mem_map, List.mem_range] at h
  obtain ⟨p, hp, i, hi, rfl⟩ := h
  exact ⟨hp, hi⟩

lemma cells_pairwise (pageCount : Nat) : (cells pageCount).Pairwise cellLt := by
  unfold cells
  induction pageCount with
  | zero => simp
  | succ n ih =>
    rw [List.range_succ, List.flatMap_append]
    rw [List.pairwise_append]
    refine ⟨ih, ?_, ?_⟩
    · simp only [List.flatMap_cons, List.flatMap_nil, List.append_nil]
      rw [List.pairwise_map]
      exact (List.pairwise_lt_range 7).imp fun h => Or.inr ⟨rfl, h⟩
    · intro a ha b hb
      simp only [List.mem_flatMap, List.mem_map, List.mem_range] at ha
      simp only [List.flatMap_cons, List.flatMap_nil, List.append_nil,
        List.mem_map, List.mem_range] at hb
      obtain ⟨p, hp, i, hi, rfl⟩ := ha
      obtain ⟨j, hj, rfl⟩ := hb
      exact Or.inl hp

lemma selectedCells_pairwise (pageCount anchor m : Nat) :
    (selectedCells pageCount anchor m).Pairwise cellLt :=
  List.Pairwise.sublist (List.filter_sublist _) (cells_pairwise pageCount)

lemma mem_selectedCells {pageCount anchor m : Nat} {c : Nat × Nat}
    (h : c ∈ selectedCells pageCount anchor m) :
    c.1 < pageCount ∧ c.2 < 7 ∧ month (mapDate anchor c.1 c.2) = m := by
  unfold selectedCells at h
  have hmem := List.mem_of_mem_filter h
  have hsel := List.of_mem_filter h
  have hc := mem_cells hmem
  unfold selected at hsel
  simp only [decide_eq_true_eq] at hsel
  exact ⟨hc.1, hc.2, hsel⟩

/-! ### Claims -/

/-- C1 (counterexample): the claim says a band of non-positive width makes
plan building fail with `InvalidGeometry` before rendering.  The code has no
such check: with the zero-width band `(5, 0, 5, 10)` the January 2026 run
still builds a full 7-entry plan for its single page. -/
theorem c1_zero_width_band_plan_built :
    (buildPlan 1 739617 ⟨5, 0, 5, 10⟩ 1).length = 7 := by decide

/-- C1 (amended): no geometry validation exists anywhere in the code; plan
building is total.  A band with `x1 <= x0` yields exactly one entry per
month-matching cell, like any other band, only with degenerate
(non-positive-width) crop rectangles. -/
theorem c1_no_geometry_validation (pageCount anchor m : Nat) (band : Rect)
    (h : band.x1 ≤ band.x0) :
    (buildPlan pageCount anchor band m).length = (selectedCells pageCount anchor m).length
    ∧ ∀ e ∈ buildPlan pageCount anchor band m, e.rect.x1 ≤ e.rect.x0 := by
  constructor
  · rw [buildPlan_eq]
    exact List.length_map _ _
  · intro e he
    rw [buildPlan_eq] at he
    obtain ⟨c, hc, rfl⟩ := List.mem_map.mp he
    have hc7 : c.2 < 7 := (mem_selectedCells hc).2.1
    have hstep : wStep band ≤ 0 := by
      unfold wStep
      apply div_nonpos_of_nonpos_of_nonneg <;> [linarith; norm_num]
    have h7s : 7 * wStep band = band.x1 - band.x0 := by
      unfold wStep
      field_simp
    simp only [mkEntry, columnRect]
    split
    · linarith
    · have h6 : c.2 = 6 := by omega
      rw [h6]
      push_cast
      linarith

/-- C1 (witness): the amended theorem applied to the zero-width band. -/
theorem c1_no_geometry_validation_witness :
    ((5 : ℚ) ≤ 5)
    ∧ ((buildPlan 1 739617 ⟨5, 0, 5, 10⟩ 1).length = (selectedCells 1 739617 1).length
      ∧ ∀ e ∈ buildPlan 1 739617 ⟨5, 0, 5, 10⟩ 1, e.rect.x1 ≤ e.rect.x0) :=
  ⟨le_refl 5, c1_no_geometry_validation 1 739617 1 ⟨5, 0, 5, 10⟩ (le_refl 5)⟩

/-- C2 (counterexample): file names are NOT pairwise distinct for every
input.  With anchor 2026-01-01 (ordinal 739617), 53 pages and target month
1, the run reaches January 2027, and day "1" occurs in both Januaries: the
entry name "1.png" repeats. -/
theorem c2_duplicate_file_name :
    ¬ (buildPlan 53 739617 ⟨0, 0, 7, 7⟩ 1).Pairwise
        fun e1 e2 => e1.file_name ≠ e2.file_name := by decide

/-- C2 (amended): if the document spans less than a full year
(`pageCount ≤ 52` weeks), no two entries of one run share a file name: all
selected dates lie in the target month and two same-month-and-day dates are
at least 365 days apart. -/
theorem c2_file_names_distinct (pageCount anchor : Nat) (band : Rect) (m : Nat)
    (h : pageCount ≤ 52) :
    (buildPlan pageCount anchor band m).Pairwise
      fun e1 e2 => e1.file_name ≠ e2.file_name := by
  rw [buildPlan_eq, List.pairwise_map]
  refine (selectedCells_pairwise pageCount anchor m).imp_of_mem ?_
  intro c1 c2 h1 h2 hlt
  obtain ⟨hp1, hi1, hm1⟩ := mem_selectedCells h1
  obtain ⟨hp2, hi2, hm2⟩ := mem_selectedCells h2
  simp only [mkEntry]
  have hne := fileName_ne (mapDate anchor c1.1 c1.2) (mapDate anchor c2.1 c2.2)
    (by unfold mapDate pageMonday; rcases hlt with h | ⟨he, h⟩ <;> omega)
    (by unfold mapDate pageMonday; rcases hlt with h | ⟨he, h⟩ <;> omega)
    (hm1.trans hm2.symm)
  exact hne

/-- C2 (witness): a two-page January 2026 run has pairwise-distinct names. -/
theorem c2_file_names_distinct_witness :
    2 ≤ 52
    ∧ (buildPlan 2 739617 ⟨0, 0, 7, 7⟩ 1).Pairwise
        fun e1 e2 => e1.file_name ≠ e2.file_name :=
  ⟨by norm_num, c2_file_names_distinct 2 739617 ⟨0, 0, 7, 7⟩ 1 (by norm_num)⟩

/-- C3 (counterexample): the claim quantifies over every anchor date, but
the weekday of a cell only matches its column when the anchor is a Monday.
Anchor 2026-01-01 (ordinal 739617) is a Thursday: the page-0 column-0 cell
has weekday 3, not 0. -/
theorem c3_nonmonday_anchor : ¬ weekday (mapDate 739617 0 0) = 0 := by decide

/-- C3 (amended): for every MONDAY anchor (`weekday anchor = 0`), every page
and every column `i < 7`, the mapped date falls on weekday `i`
(Monday = 0). -/
theorem c3_weekday_matches_column (anchor p i : Nat)
    (hanchor : weekday anchor = 0) (hi : i < 7) :
    weekday (mapDate anchor p i) = i := by
  unfold weekday at hanchor
  unfold weekday mapDate pageMonday
  omega

/-- C3 (witness): anchor 2026-01-05 (ordinal 739621) is a Monday; page 3,
column 4 lands on weekday 4. -/
theorem c3_weekday_matches_column_witness :
    weekday 739621 = 0 ∧ (4 : Nat) < 7 ∧ weekday (mapDate 739621 3 4) = 4 :=
  ⟨by decide, by decide, c3_weekday_matches_column 739621 3 4 (by decide) (by decide)⟩

/-- C4: for a positive-width band and any column `i ≤ 6`, the column
rectangle has left edge `x0 + i * step` with `step = (x1 - x0) / 7`, right
edge `left + step` for `i < 6` and exactly `x1` for `i = 6`, and the band's
`y0`, `y1` pass through unchanged. -/
theorem c4_column_rect_edges (band : Rect) (h : band.x0 < band.x1) (i : Nat) (hi : i ≤ 6) :
    (columnRect band i).x0 = band.x0 + (i : ℚ) * ((band.x1 - band.x0) / 7)
    ∧ (columnRect band i).y0 = band.y0
    ∧ (columnRect band i).y1 = band.y1
    ∧ (i < 6 → (columnRect band i).x1
        = (columnRect band i).x0 + (band.x1 - band.x0) / 7)
    ∧ (i = 6 → (columnRect band i).x1 = band.x1) := by
  refine ⟨rfl, rfl, rfl, ?_, ?_⟩
  · intro h6
    simp only [columnRect, wStep, if_pos h6]
  · intro h6
    subst h6
    simp only [columnRect, wStep]
    norm_num

/-- C4 (witness): the edge identities at the band `(0, 0, 7, 7)`, column 2. -/
theorem c4_column_rect_edges_witness :
    ((0 : ℚ) < 7)
    ∧ ((columnRect ⟨0, 0, 7, 7⟩ 2).x0 = (0 : ℚ) + (2 : ℚ) * (((7 : ℚ) - 0) / 7)
      ∧ (columnRect ⟨0, 0, 7, 7⟩ 2).y0 = 0
      ∧ (columnRect ⟨0, 0, 7, 7⟩ 2).y1 = 7
      ∧ ((2 : Nat) < 6 → (columnRect ⟨0, 0, 7, 7⟩ 2).x1
          = (columnRect ⟨0, 0, 7, 7⟩ 2).x0 + ((7 : ℚ) - 0) / 7)
      ∧ ((2 : Nat) = 6 → (columnRect ⟨0, 0, 7, 7⟩ 2).x1 = 7)) :=
  ⟨by norm_num, c4_column_rect_edges ⟨0, 0, 7, 7⟩ (by norm_num) 2 (by norm_num)⟩

/-- C5 (counterexample): date arithmetic is NOT unbounded and error-free:
CPython raises `OverflowError` past `date.max` (9999-12-31, ordinal
3652059).  With that date as anchor, page 1 already overflows. -/
theorem c5_overflow_at_max_date : mapDateChecked 3652059 1 0 = none := by decide

/-- C5 (amended): whenever the result stays within Python's date range, the
cell date is exactly `anchor + (7 * pageIndex + columnIndex)` days (both
checked additions succeed), and the computation is deterministic; outside
that range `date.__add__` raises `OverflowError`. -/
theorem c5_map_date_formula (anchor p i : Nat) (h0 : 0 < anchor)
    (hmax : anchor + p * 7 + i ≤ maxOrdinal) :
    mapDateChecked anchor p i = some (anchor + (7 * p + i))
    ∧ mapDate anchor p i = anchor + (7 * p + i) := by
  constructor
  · unfold mapDateChecked addDays
    rw [if_pos (by omega)]
    show (if 0 < anchor + p * 7 + i ∧ anchor + p * 7 + i ≤ maxOrdinal
        then some (anchor + p * 7 + i) else none) = some (anchor + (7 * p + i))
    rw [if_pos (by omega)]
    congr 1
    ring
  · unfold mapDate pageMonday
    ring

/-- C5 (witness): the formula at anchor 2026-01-01, page 2, column 3. -/
theorem c5_map_date_formula_witness :
    0 < 739617 ∧ 739617 + 2 * 7 + 3 ≤ maxOrdinal
    ∧ mapDateChecked 739617 2 3 = some (739617 + (7 * 2 + 3)) :=
  ⟨by norm_num, by decide,
   (c5_map_date_formula 739617 2 3 (by norm_num) (by decide)).1⟩

/-- C6: the plan is exactly the list of cells whose date has
`month = targetMonth`, in visit order, one entry each: membership is
decided solely by the month (the year is never consulted), and no
month-matching cell is ever dropped for geometric reasons. -/
theorem c6_month_filter_exact (pageCount anchor : Nat) (band : Rect) (m : Nat) :
    buildPlan pageCount anchor band m
      = ((cells pageCount).filter fun c => decide (month (mapDate anchor c.1 c.2) = m)).map
          fun c => mkEntry anchor band c.1 c.2 :=
  buildPlan_eq pageCount anchor band m

/-- C7: the 7 column rectangles tile the band exactly: first left edge is
`x0`, each right edge meets the next left edge, the last right edge is
`x1`, and the widths sum to `x1 - x0` (exactly, in rational arithmetic). -/
theorem c7_columns_tile_band (band : Rect) (h : band.x0 < band.x1) :
    (columnRect band 0).x0 = band.x0
    ∧ (∀ i : Nat, i < 6 → (columnRect band i).x1 = (columnRect band (i + 1)).x0)
    ∧ (columnRect band 6).x1 = band.x1
    ∧ (Finset.range 7).sum (fun i => (columnRect band i).x1 - (columnRect band i).x0)
        = band.x1 - band.x0 := by
  refine ⟨by simp [columnRect], ?_, ?_, ?_⟩
  · intro i hi
    simp only [columnRect, wStep, if_pos hi]
    push_cast
    ring
  · simp [columnRect]
  · simp only [Finset.sum_range_succ, Finset.sum_range_zero, columnRect, wStep]
    norm_num
    ring

/-- C7 (witness): the tiling identities at the band `(0, 0, 7, 7)`. -/
theorem c7_columns_tile_band_witness :
    ((0 : ℚ) < 7)
    ∧ ((columnRect ⟨0, 0, 7, 7⟩ 0).x0 = 0
      ∧ (∀ i : Nat, i < 6 →
          (columnRect ⟨0, 0, 7, 7⟩ i).x1 = (columnRect ⟨0, 0, 7, 7⟩ (i + 1)).x0)
      ∧ (columnRect ⟨0, 0, 7, 7⟩ 6).x1 = 7
      ∧ (Finset.range 7).sum
          (fun i => (columnRect ⟨0, 0, 7, 7⟩ i).x1 - (columnRect ⟨0, 0, 7, 7⟩ i).x0)
          = (7 : ℚ) - 0) :=
  ⟨by norm_num, c7_columns_tile_band ⟨0, 0, 7, 7⟩ (by norm_num)⟩

/-- C8: the plan is produced in nested ascending loop order: the selected
cells are strictly increasing in (page, column) lexicographic order, the
plan is their image, and consequently entries are non-decreasing in
`page_index`. -/
theorem c8_plan_ordered (pageCount anchor : Nat) (band : Rect) (m : Nat) :
    buildPlan pageCount anchor band m
      = (selectedCells pageCount anchor m).map (fun c => mkEntry anchor band c.1 c.2)
    ∧ (selectedCells pageCount anchor m).Pairwise cellLt
    ∧ (buildPlan pageCount anchor band m).Pairwise
        fun e1 e2 => e1.page_index ≤ e2.page_index := by
  refine ⟨buildPlan_eq pageCount anchor band m, selectedCells_pairwise pageCount anchor m, ?_⟩
  rw [buildPlan_eq, List.pairwise_map]
  refine (selectedCells_pairwise pageCount anchor m).imp ?_
  intro c1 c2 h
  simp only [mkEntry]
  rcases h with h | ⟨he, h⟩
  · omega
  · omega

/-- C9: when no cell of the document falls in the target month, the run
completes normally: the plan and archive are empty, `saved_count` is 0, and
the app surfaces a warning instead of a download button. -/
theorem c9_empty_month_yields_warning (pageCount anchor : Nat) (band : Rect) (m : Nat)
    (h : ∀ p, p < pageCount → ∀ i, i < 7 → month (mapDate anchor p i) ≠ m) :
    buildPlan pageCount anchor band m = []
    ∧ emittedCount pageCount anchor band m = 0
    ∧ archiveNames pageCount anchor band m = []
    ∧ runOutcome pageCount anchor band m = Outcome.warning := by
  have hsel : selectedCells pageCount anchor m = [] := by
    unfold selectedCells
    rw [List.filter_eq_nil_iff]
    intro c hc
    have hcc := mem_cells hc
    unfold selected
    simp only [decide_eq_true_eq]
    exact h c.1 hcc.1 c.2 hcc.2
  have hplan : buildPlan pageCount anchor band m = [] := by
    rw [buildPlan_eq, hsel]
    rfl
  refine ⟨hplan, ?_, ?_, ?_⟩
  · simp [emittedCount, hplan]
  · simp [archiveNames, hplan]
  · simp [runOutcome, emittedCount, hplan]

/-- C9 (witness): a one-page January 2026 document run against target month
5 emits nothing and warns. -/
theorem c9_empty_month_yields_warning_witness :
    (∀ p, p < 1 → ∀ i, i < 7 → month (mapDate 739617 p i) ≠ 5)
    ∧ runOutcome 1 739617 ⟨0, 0, 7, 7⟩ 5 = Outcome.warning :=
  ⟨by decide, (c9_empty_month_yields_warning 1 739617 ⟨0, 0, 7, 7⟩ 5 (by decide)).2.2.2⟩

/-- C10: two runs agreeing on page count, anchor and target month produce
identical ordered name sequences and identical emitted counts, whatever
their bands and resolutions: selection and naming never consult geometry or
resolution. -/
theorem c10_names_independent_of_geometry (pageCount anchor m : Nat)
    (band1 band2 : Rect) (dpi1 dpi2 : Nat) :
    runArchive pageCount anchor band1 m dpi1 = runArchive pageCount anchor band2 m dpi2 := by
  unfold runArchive archiveNames emittedCount
  rw [buildPlan_eq, buildPlan_eq]
  simp only [List.map_map, List.length_map]
  rfl

end MenuSplit
